import Mathlib

/-!
Verification of the nose_xunitmp plugin (file `nose_xunitmp.py`) against its
natural-language specification.  The Python code is shallowly embedded:

* the shared stats dictionary created by `multiprocessing.Manager().dict()`
  is modelled as an association list `List (String × PyVal)` with Python
  dict update semantics (`dictSet`), since the manager serialises each
  individual `__getitem__` / `__setitem__` proxy call;
* the shared error list created by `manager.list()` is a `List String`;
* `XunitMP.report` (lines 57-80) is modelled by `report` below;
* the three result handlers `addError` / `addFailure` / `addSuccess`
  (lines 85-172) are modelled over a record state, with the external nose
  helper outputs (`self._quoteattr`, `escape_cdata`, `format_exception`,
  `_getCapturedStdout`, `_getCapturedStderr`, `_timeTaken`) supplied as
  already-computed string or rational fields of the incoming event, because
  those helpers are imported from the external `nose` package and are out
  of scope per the specification;
* float timestamps are modelled by exact rationals and the float formatter
  `"%.3f"` by an abstract formatting function in the environment;
* the non-atomic cross-process behaviour of `self.stats[k] += 1` (one
  `__getitem__` proxy call followed by one `__setitem__` proxy call) is
  modelled by an explicit small-step machine further below.
-/

/-- Values stored in the shared stats dictionary: the four counters are
Python ints, and `report` additionally stores the encoding, a string. -/
inductive PyVal
  | int (n : Int)
  | str (s : String)
deriving DecidableEq

/-- Python dict assignment `d[k] = v`: overwrite in place when the key is
present (insertion order kept), otherwise append a new entry. -/
def dictSet (d : List (String × PyVal)) (k : String) (v : PyVal) :
    List (String × PyVal) :=
  if d.any (fun kv => kv.1 == k) then
    d.map (fun kv => if kv.1 == k then (k, v) else kv)
  else
    d ++ [(k, v)]

/-- Python dict read `d[k]` expecting an int value. -/
def dictGetInt (d : List (String × PyVal)) (k : String) : Option Int :=
  match List.lookup k d with
  | some (PyVal.int n) => some n
  | _ => none

/-- Python dict read `d[k]` expecting a string value. -/
def dictGetStr (d : List (String × PyVal)) (k : String) : Option String :=
  match List.lookup k d with
  | some (PyVal.str s) => some s
  | _ => none

/-- The single `%`-interpolated literal written first by `XunitMP.report`
(lines 68-72): XML prologue plus the `<testsuite>` opening tag, filled with
the values read back from the stats dictionary. -/
def reportHeader (enc : String) (total errors failures skipped : Int) : String :=
  "<?xml version=\"1.0\" encoding=\"" ++ enc ++
  "\"?><testsuite name=\"nosetests\" tests=\"" ++ toString total ++
  "\" errors=\"" ++ toString errors ++ "\" failures=\"" ++ toString failures ++
  "\" skip=\"" ++ toString skipped ++ "\">"

/-- Model of `XunitMP.report` (lines 57-80).  It first stores the encoding
in the shared stats dict, reads the four counters to store their sum under
the key `total`, then writes, in order: the header literal interpolated
from the dict, the concatenation of every fragment of the shared error
list (`force_unicode` is the identity on the strings the handlers append),
and the closing tag.  The returned pair is the full text written to the
file together with the stats dict as `report` leaves it.  A missing or
non-int counter key would raise `KeyError` in Python; the model returns
`none` there. -/
def report (stats : List (String × PyVal)) (errorlist : List String)
    (encoding : String) : Option (String × List (String × PyVal)) :=
  let st1 := dictSet stats "encoding" (PyVal.str encoding)
  match dictGetInt st1 "errors", dictGetInt st1 "failures",
        dictGetInt st1 "passes", dictGetInt st1 "skipped" with
  | some e, some f, some p, some s =>
    let st2 := dictSet st1 "total" (PyVal.int (e + f + p + s))
    match dictGetStr st2 "encoding", dictGetInt st2 "total",
          dictGetInt st2 "errors", dictGetInt st2 "failures",
          dictGetInt st2 "skipped" with
    | some encv, some tot, some e2, some f2, some s2 =>
      some (reportHeader encv tot e2 f2 s2 ++ String.join errorlist ++
              "</testsuite>", st2)
    | _, _, _, _, _ => none
  | _, _, _, _ => none

/-- The stats dictionary exactly as `XunitMP.configure` creates it (lines
46-51): the four counters in insertion order, here with arbitrary values. -/
def stdStats (e f p s : Int) : List (String × PyVal) :=
  [("errors", PyVal.int e), ("failures", PyVal.int f),
   ("passes", PyVal.int p), ("skipped", PyVal.int s)]

/-- Modelled from the claim wording: the XML prologue carrying the
configured encoding name. -/
def xmlPrologue (encodingName : String) : String :=
  "<?xml version=\"1.0\" encoding=\"" ++ encodingName ++ "\"?>"

/-- Modelled from the claim wording: the `<testsuite>` opening tag whose
`tests` attribute is the sum of the four counters and which carries the
`errors`, `failures` and `skip` counts. -/
def testsuiteOpenTag (errors failures passes skipped : Int) : String :=
  "<testsuite name=\"nosetests\" tests=\"" ++
  toString (errors + failures + passes + skipped) ++
  "\" errors=\"" ++ toString errors ++ "\" failures=\"" ++ toString failures ++
  "\" skip=\"" ++ toString skipped ++ "\">"

/-- Modelled from the claim wording for C1: prologue, then opening tag,
then every fragment concatenated verbatim in order, then the closing tag
and nothing else. -/
def reportSpecOutput (encodingName : String) (errors failures passes skipped : Int)
    (fragments : List String) : String :=
  xmlPrologue encodingName ++
  testsuiteOpenTag errors failures passes skipped ++
  String.join fragments ++ "</testsuite>"

/-- Helper: the evaluation of `report` on the canonical four-counter stats
dictionary, shared by several claim proofs. -/
theorem report_stdStats (e f p s : Int) (el : List String) (enc : String) :
    report (stdStats e f p s) el enc =
      some (reportHeader enc (e + f + p + s) e f s ++ String.join el ++
              "</testsuite>",
            stdStats e f p s ++
              [("encoding", PyVal.str enc),
               ("total", PyVal.int (e + f + p + s))]) := by
  simp [report, stdStats, dictSet, dictGetInt, dictGetStr, List.lookup]

/-- C1: for every run, the report written by the finalizer consists of
exactly the XML prologue with the configured encoding, then a
`<testsuite>` opening tag whose `tests` attribute is the sum
`errors + failures + passes + skipped` of the four counters and which
carries the `errors`, `failures` and `skip` counts, then every fragment of
the shared sequence concatenated verbatim in order, then the closing
`</testsuite>` tag and nothing else. -/
theorem report_writes_exact_document (e f p s : Int) (el : List String)
    (enc : String) :
    (report (stdStats e f p s) el enc).map Prod.fst =
      some (reportSpecOutput enc e f p s el) := by
  rw [report_stdStats]
  refine congrArg some (String.ext ?_)
  simp [reportHeader, reportSpecOutput, xmlPrologue, testsuiteOpenTag,
        String.data_append, List.append_assoc]

/-- C9 counterexample: running the finalizer does not leave the shared
stats dictionary unchanged.  Lines 65-67 of `report` assign
`stats["encoding"]` and `stats["total"]`, so after finalization the map
holds six entries, not exactly the four counters. -/
theorem finalizer_mutates_stats_map :
    (report (stdStats 1 2 3 4) [] "UTF-8").map Prod.snd ≠
      some (stdStats 1 2 3 4) ∧
    (report (stdStats 1 2 3 4) [] "UTF-8").map (fun r => r.2.length) =
      some 6 := by
  constructor
  · rw [report_stdStats]
    decide
  · rw [report_stdStats]
    rfl

/-- C9 amended: the finalizer never changes the values of the four
counters `errors`, `failures`, `passes`, `skipped`, but it does write two
further entries into the shared map, `encoding` (the configured encoding
name) and `total` (the sum of the four counters). -/
theorem finalizer_preserves_counter_values (e f p s : Int) (el : List String)
    (enc : String) (out : String) (st2 : List (String × PyVal))
    (h : report (stdStats e f p s) el enc = some (out, st2)) :
    dictGetInt st2 "errors" = some e ∧ dictGetInt st2 "failures" = some f ∧
    dictGetInt st2 "passes" = some p ∧ dictGetInt st2 "skipped" = some s ∧
    dictGetStr st2 "encoding" = some enc ∧
    dictGetInt st2 "total" = some (e + f + p + s) ∧
    st2 = stdStats e f p s ++
      [("encoding", PyVal.str enc), ("total", PyVal.int (e + f + p + s))] := by
  rw [report_stdStats] at h
  obtain ⟨-, rfl⟩ := Prod.mk.injEq .. ▸ Option.some.inj h
  refine ⟨?_, ?_, ?_, ?_, ?_, ?_, rfl⟩ <;>
    simp [stdStats, dictGetInt, dictGetStr, List.lookup]

/-- Witness for C9 amended at a concrete run. -/
theorem finalizer_preserves_counter_values_witness :
    dictGetInt (stdStats 2 0 5 1 ++
      [("encoding", PyVal.str "UTF-8"), ("total", PyVal.int 8)]) "errors" =
        some 2 ∧
    dictGetInt (stdStats 2 0 5 1 ++
      [("encoding", PyVal.str "UTF-8"), ("total", PyVal.int 8)]) "failures" =
        some 0 ∧
    dictGetInt (stdStats 2 0 5 1 ++
      [("encoding", PyVal.str "UTF-8"), ("total", PyVal.int 8)]) "passes" =
        some 5 ∧
    dictGetInt (stdStats 2 0 5 1 ++
      [("encoding", PyVal.str "UTF-8"), ("total", PyVal.int 8)]) "skipped" =
        some 1 ∧
    dictGetStr (stdStats 2 0 5 1 ++
      [("encoding", PyVal.str "UTF-8"), ("total", PyVal.int 8)]) "encoding" =
        some "UTF-8" ∧
    dictGetInt (stdStats 2 0 5 1 ++
      [("encoding", PyVal.str "UTF-8"), ("total", PyVal.int 8)]) "total" =
        some 8 ∧
    (stdStats 2 0 5 1 ++
      [("encoding", PyVal.str "UTF-8"), ("total", PyVal.int 8)]) =
      stdStats 2 0 5 1 ++
        [("encoding", PyVal.str "UTF-8"), ("total", PyVal.int (2 + 0 + 5 + 1))] := by
  have h := finalizer_preserves_counter_values 2 0 5 1 [] "UTF-8"
    (reportHeader "UTF-8" (2 + 0 + 5 + 1) 2 0 1 ++ String.join [] ++
      "</testsuite>")
    (stdStats 2 0 5 1 ++
      [("encoding", PyVal.str "UTF-8"), ("total", PyVal.int (2 + 0 + 5 + 1))])
    (by rw [report_stdStats])
  simpa using h

/-- The errors argument passed to `codecs.open` by `XunitMP.report`
(lines 63-64): the literal string `replace`. -/
def reportErrorsArg : String := "replace"

/-- Byte written by the Python `replace` error handler for a character the
destination codec cannot represent: a question mark. -/
def replacementByte : Nat := 63

/-- Encoding of one character under a partial codec and a codec error
mode: a representable character encodes to its byte sequence; an
unrepresentable one is substituted in `replace` mode and is a failure in
any other mode. -/
def pyEncodeChar (codec : Char → Option (List Nat)) (errorsMode : String)
    (c : Char) : Option (List Nat) :=
  match codec c with
  | some bs => some bs
  | none => if errorsMode == "replace" then some [replacementByte] else none

/-- Encoding of a whole text: the concatenation of the per-character
encodings, failing when any character fails. -/
def pyEncodeText (codec : Char → Option (List Nat)) (errorsMode : String)
    (s : String) : Option (List Nat) :=
  s.data.foldr
    (fun c acc =>
      match pyEncodeChar codec errorsMode c, acc with
      | some bs, some rest => some (bs ++ rest)
      | _, _ => none)
    (some [])

/-- Bytes that reach the report file: the text produced by `report`,
pushed through the codec with the error mode the source passes to
`codecs.open`. -/
def reportFileBytes (codec : Char → Option (List Nat))
    (stats : List (String × PyVal)) (errorlist : List String)
    (encoding : String) : Option (List Nat) :=
  match report stats errorlist encoding with
  | some (out, _) => pyEncodeText codec reportErrorsArg out
  | none => none

/-- Helper: in `replace` mode, encoding a list of characters always
succeeds, substituting the replacement byte for every character the codec
cannot represent. -/
theorem pyEncodeText_replace (codec : Char → Option (List Nat)) (s : String) :
    pyEncodeText codec reportErrorsArg s =
      some (s.data.flatMap (fun c => (codec c).getD [replacementByte])) := by
  unfold pyEncodeText
  induction s.data with
  | nil => rfl
  | cons c l ih =>
    rw [List.foldr_cons, ih]
    cases h : codec c <;>
      simp [pyEncodeChar, reportErrorsArg, h]

/-- C8: when the report text contains characters the destination codec
cannot represent, finalization does not raise: every character of the
report is written, representable characters through the codec and the
others as the replacement byte, so the report file is always completely
written. -/
theorem report_encoding_replace_total :
    (∀ (codec : Char → Option (List Nat)) (s : String),
        pyEncodeText codec reportErrorsArg s =
          some (s.data.flatMap (fun c => (codec c).getD [replacementByte]))) ∧
    (∀ (codec : Char → Option (List Nat)) (e f p s : Int)
        (el : List String) (enc : String),
        (reportFileBytes codec (stdStats e f p s) el enc).isSome = true) := by
  refine ⟨pyEncodeText_replace, fun codec e f p s el enc => ?_⟩
  rw [reportFileBytes, report_stdStats]
  simp [pyEncodeText_replace]

/-- Occurrence of a character pattern inside a character list. -/
def occursIn (pat s : List Char) : Prop := ∃ u v, s = u ++ pat ++ v

/-- Adjacent character pairs of a list, used to reason about which
two-character sequences can appear in a concatenation. -/
def adjPairs (l : List Char) : List (Char × Char) := l.zip l.tail

theorem adjPairs_cons_cons (x y : Char) (l : List Char) :
    adjPairs (x :: y :: l) = (x, y) :: adjPairs (y :: l) := rfl

theorem adjPairs_append_left {p : Char × Char} {b a : List Char}
    (h : p ∈ adjPairs a) : p ∈ adjPairs (a ++ b) := by
  induction a with
  | nil => simp [adjPairs] at h
  | cons x t ih =>
    cases t with
    | nil => simp [adjPairs] at h
    | cons y t2 =>
      rw [List.cons_append, List.cons_append, adjPairs_cons_cons]
      rw [adjPairs_cons_cons] at h
      rcases List.mem_cons.mp h with h | h
      · exact List.mem_cons.mpr (Or.inl h)
      · have := ih h
        rw [List.cons_append] at this
        exact List.mem_cons.mpr (Or.inr this)

theorem adjPairs_append_right {p : Char × Char} {a b : List Char}
    (h : p ∈ adjPairs b) : p ∈ adjPairs (a ++ b) := by
  induction a with
  | nil => simpa using h
  | cons x t ih =>
    rw [List.cons_append]
    cases htb : t ++ b with
    | nil => rw [htb] at ih; simp [adjPairs] at ih
    | cons z w =>
      rw [adjPairs_cons_cons]
      rw [htb] at ih
      exact List.mem_cons.mpr (Or.inr ih)

theorem adjPairs_append_split {p : Char × Char} {a b : List Char}
    (h : p ∈ adjPairs (a ++ b)) :
    p ∈ adjPairs a ∨ p ∈ adjPairs b ∨
      (a.getLast? = some p.1 ∧ b.head? = some p.2) := by
  induction a with
  | nil => exact Or.inr (Or.inl (by simpa using h))
  | cons x t ih =>
    cases t with
    | nil =>
      cases b with
      | nil => simp [adjPairs] at h
      | cons y w =>
        rw [show [x] ++ y :: w = x :: y :: w from rfl, adjPairs_cons_cons] at h
        rcases List.mem_cons.mp h with h | h
        · refine Or.inr (Or.inr ?_)
          rw [h]
          exact ⟨rfl, rfl⟩
        · exact Or.inr (Or.inl h)
    | cons y t2 =>
      rw [List.cons_append, List.cons_append, adjPairs_cons_cons] at h
      rcases List.mem_cons.mp h with h | h
      · refine Or.inl ?_
        rw [h, adjPairs_cons_cons]
        exact List.mem_cons.mpr (Or.inl rfl)
      · have h2 := ih h
        rcases h2 with h2 | h2 | ⟨hl, hh⟩
        · refine Or.inl ?_
          rw [adjPairs_cons_cons]
          exact List.mem_cons.mpr (Or.inr h2)
        · exact Or.inr (Or.inl h2)
        · refine Or.inr (Or.inr ⟨?_, hh⟩)
          rw [List.getLast?_cons_cons]
          exact hl

theorem fst_mem_of_mem_adjPairs {c d : Char} {l : List Char}
    (h : (c, d) ∈ adjPairs l) : c ∈ l :=
  (List.of_mem_zip h).1

theorem mem_of_getLast?_eq {l : List Char} {c : Char}
    (h : l.getLast? = some c) : c ∈ l := by
  cases l with
  | nil => simp at h
  | cons x t =>
    rw [List.getLast?_eq_getLast _ (by simp)] at h
    exact (Option.some.inj h) ▸ List.getLast_mem _

/-- A chunk of a concatenation neither contains the pair `<` followed by
`c` among its adjacent pairs nor ends in `<`; such chunks can never create
an occurrence of a tag starting with `<c`. -/
def chunkOK (c : Char) (l : List Char) : Prop :=
  ('<', c) ∉ adjPairs l ∧ l.getLast? ≠ some '<'

theorem chunkOK_of_not_mem {c : Char} {l : List Char} (h : '<' ∉ l) :
    chunkOK c l :=
  ⟨fun hm => h (fst_mem_of_mem_adjPairs hm),
   fun hl => h (mem_of_getLast?_eq hl)⟩

theorem flatten_no_pair {c : Char} {chunks : List (List Char)}
    (hall : ∀ l ∈ chunks, chunkOK c l) :
    ('<', c) ∉ adjPairs chunks.flatten := by
  induction chunks with
  | nil => intro h; simp [adjPairs] at h
  | cons ch rest ih =>
    intro h
    rw [List.flatten_cons] at h
    rcases adjPairs_append_split h with h | h | ⟨hl, _⟩
    · exact (hall ch (by simp)).1 h
    · exact ih (fun l hml => hall l (by simp [hml])) h
    · exact (hall ch (by simp)).2 hl

theorem pair_of_occursIn {c1 c2 : Char} {rest s : List Char}
    (h : occursIn (c1 :: c2 :: rest) s) : (c1, c2) ∈ adjPairs s := by
  obtain ⟨u, v, rfl⟩ := h
  rw [List.append_assoc]
  refine adjPairs_append_right (adjPairs_append_left ?_)
  rw [adjPairs_cons_cons]
  exact List.mem_cons.mpr (Or.inl rfl)

/-- The constant `name` attribute hard-coded in the format literal of
`XunitMP.report` (line 70). -/
def nameAttrLiteral : String := "name=\"nosetests\""

/-- C10: for every run, whatever the counter values, fragments and
configured encoding, the written report contains the constant testsuite
name attribute `name="nosetests"`. -/
theorem testsuite_name_constant (e f p s : Int) (el : List String)
    (enc : String) :
    ∃ out st2, report (stdStats e f p s) el enc = some (out, st2) ∧
      occursIn nameAttrLiteral.data out.data := by
  refine ⟨_, _, report_stdStats e f p s el enc, ?_⟩
  refine ⟨("<?xml version=\"1.0\" encoding=\"" : String).data ++ enc.data ++
            ("\"?><testsuite " : String).data,
          (" tests=\"" : String).data ++ (toString (e + f + p + s)).data ++
            ("\" errors=\"" : String).data ++ (toString e).data ++
            ("\" failures=\"" : String).data ++ (toString f).data ++
            ("\" skip=\"" : String).data ++ (toString s).data ++
            ("\">" : String).data ++ (String.join el).data ++
            ("</testsuite>" : String).data, ?_⟩
  simp [reportHeader, nameAttrLiteral, String.data_append, List.append_assoc]

/-- The four counters during the run phase.  `XunitMP.configure` creates
them with `manager.dict(errors=0, failures=0, passes=0, skipped=0)` and
the handlers only ever target these four fixed keys. -/
structure Stats where
  errors : Nat
  failures : Nat
  passes : Nat
  skipped : Nat
deriving DecidableEq

/-- Sum of the four counters. -/
def Stats.total (s : Stats) : Nat :=
  s.errors + s.failures + s.passes + s.skipped

/-- The four counter keys the handlers use. -/
inductive CounterKey
  | errors
  | failures
  | passes
  | skipped
deriving DecidableEq

def Stats.get (s : Stats) : CounterKey → Nat
  | .errors => s.errors
  | .failures => s.failures
  | .passes => s.passes
  | .skipped => s.skipped

def Stats.set (s : Stats) : CounterKey → Nat → Stats
  | .errors, n => { s with errors := n }
  | .failures, n => { s with failures := n }
  | .passes, n => { s with passes := n }
  | .skipped, n => { s with skipped := n }

/-- One remote call on a shared manager proxy.  The manager server
serialises individual proxy calls, so each call is atomic, but the Python
statement `self.stats[k] += 1` (lines 92, 95, 127, 155) issues two calls,
`kread k` (the dict `__getitem__`) followed by `kwrite k` (the dict
`__setitem__` storing the previously read value plus one), while
`self.errorlist.append(frag)` is the single call `kappend frag`. -/
inductive ProxyCall
  | kread (k : CounterKey)
  | kwrite (k : CounterKey)
  | kappend (frag : String)
deriving DecidableEq

/-- A worker process: the proxy calls it still has to issue, and the
value its local `+=` has read but not yet written back. -/
structure WorkerState where
  script : List ProxyCall
  held : Option Nat
deriving DecidableEq

/-- Cross-process system state: the shared stats and error list held by
the manager server, plus every worker. -/
structure MachineState where
  stats : Stats
  errorlist : List String
  workers : List WorkerState
deriving DecidableEq

/-- One scheduling step: worker `i` issues its next proxy call. -/
def machineStep (m : MachineState) (i : Nat) : MachineState :=
  match m.workers[i]? with
  | none => m
  | some w =>
    match w.script with
    | [] => m
    | ProxyCall.kread k :: rest =>
        { m with workers :=
            m.workers.set i { script := rest, held := some (m.stats.get k) } }
    | ProxyCall.kwrite k :: rest =>
        { m with stats := m.stats.set k (w.held.getD 0 + 1),
                 workers := m.workers.set i { script := rest, held := none } }
    | ProxyCall.kappend frag :: rest =>
        { m with errorlist := m.errorlist ++ [frag],
                 workers := m.workers.set i { script := rest, held := w.held } }

/-- Run of the machine under an explicit interleaving schedule. -/
def runMachine (m : MachineState) (sched : List Nat) : MachineState :=
  sched.foldl machineStep m

/-- Quiescence: every worker has issued all of its proxy calls. -/
def quiescedDone (m : MachineState) : Prop :=
  ∀ w ∈ m.workers, w.script = [] ∧ w.held = none

instance (m : MachineState) : Decidable (quiescedDone m) :=
  inferInstanceAs (Decidable (∀ w ∈ m.workers, w.script = [] ∧ w.held = none))

/-- Proxy calls issued by one `self.stats[k] += 1` statement. -/
def incrScript (k : CounterKey) : List ProxyCall :=
  [ProxyCall.kread k, ProxyCall.kwrite k]

/-- Proxy calls issued by one `addSuccess` handler: the increment of
`passes` (line 155) followed by the append of the fragment (line 162). -/
def successScript (frag : String) : List ProxyCall :=
  [ProxyCall.kread CounterKey.passes, ProxyCall.kwrite CounterKey.passes,
   ProxyCall.kappend frag]

/-- Two workers that each issue exactly one increment of `passes`. -/
def twoIncrMachine : MachineState :=
  { stats := ⟨0, 0, 0, 0⟩, errorlist := [],
    workers := [⟨incrScript CounterKey.passes, none⟩,
                ⟨incrScript CounterKey.passes, none⟩] }

/-- C2: two concurrent workers each issue one increment of the same
counter; under the interleaving where both read before either writes, the
final value is 1, not 2 — the non-atomic read-then-write of
`self.stats[k] += 1` on the manager dict proxy loses an update, contrary
to the claimed atomicity. -/
theorem increment_lost_update_run :
    quiescedDone (runMachine twoIncrMachine [0, 1, 0, 1]) ∧
    (runMachine twoIncrMachine [0, 1, 0, 1]).stats.passes = 1 ∧
    (runMachine twoIncrMachine [0, 1, 0, 1]).stats.passes ≠ 2 := by
  decide

/-- Two workers that each run one full `addSuccess` handler. -/
def twoSuccessMachine : MachineState :=
  { stats := ⟨0, 0, 0, 0⟩, errorlist := [],
    workers := [⟨successScript "fragA", none⟩,
                ⟨successScript "fragB", none⟩] }

/-- C4 counterexample: a quiesced run of two concurrent `addSuccess`
handlers in which the two interleaved increments lose an update: the four
counters sum to 1 while 2 fragments were appended, so at this quiesced
snapshot the total of the counters does not equal the number of
fragments. -/
theorem counters_fragments_diverge_interleaved :
    quiescedDone (runMachine twoSuccessMachine [0, 1, 0, 0, 1, 1]) ∧
    (runMachine twoSuccessMachine [0, 1, 0, 0, 1, 1]).stats.total = 1 ∧
    (runMachine twoSuccessMachine [0, 1, 0, 0, 1, 1]).errorlist.length = 2 ∧
    (runMachine twoSuccessMachine [0, 1, 0, 0, 1, 1]).stats.total ≠
      (runMachine twoSuccessMachine [0, 1, 0, 0, 1, 1]).errorlist.length := by
  decide

/-- A broken-down local date-time at second granularity, the argument of
`strftime` after `datetime.fromtimestamp`. -/
structure DT where
  year : Nat
  month : Nat
  day : Nat
  hour : Nat
  minute : Nat
  second : Nat
deriving DecidableEq

/-- A locale as `strftime` consults it: its date representation (the `%x`
directive) and its time representation (the `%X` directive).  Both
directives are defined by libc as the representation of the current
locale. -/
structure TimeLocale where
  dateRepr : DT → String
  timeRepr : DT → String

/-- Two-digit zero padding used by the locale representations. -/
def pad2 (n : Nat) : String :=
  if n < 10 then "0" ++ toString n else toString n

/-- Interpreter for the `strftime` format directives the source uses:
`%x` and `%X` delegate to the locale, `%%` is a literal percent sign and
every other character is copied. -/
def strftimeChars (loc : TimeLocale) (dt : DT) : List Char → String
  | [] => ""
  | '%' :: 'x' :: rest => loc.dateRepr dt ++ strftimeChars loc dt rest
  | '%' :: 'X' :: rest => loc.timeRepr dt ++ strftimeChars loc dt rest
  | '%' :: '%' :: rest => "%" ++ strftimeChars loc dt rest
  | c :: rest => String.singleton c ++ strftimeChars loc dt rest

/-- Model of `datetime.strftime` for the directives used by the source. -/
def pyStrftime (fmt : String) (loc : TimeLocale) (dt : DT) : String :=
  strftimeChars loc dt fmt.data

/-- The format string passed to `strftime` by all three handlers
(lines 118-119, 147-148, 170-171). -/
def timestampFormat : String := "%x %X"

/-- The POSIX C locale: `%x` is `MM/DD/YY` and `%X` is `HH:MM:SS`. -/
def cLocale : TimeLocale where
  dateRepr := fun dt =>
    pad2 dt.month ++ "/" ++ pad2 dt.day ++ "/" ++ pad2 (dt.year % 100)
  timeRepr := fun dt =>
    pad2 dt.hour ++ ":" ++ pad2 dt.minute ++ ":" ++ pad2 dt.second

/-- A German-style locale: `%x` is `DD.MM.YYYY`, `%X` is `HH:MM:SS`. -/
def germanLocale : TimeLocale where
  dateRepr := fun dt =>
    pad2 dt.day ++ "." ++ pad2 dt.month ++ "." ++ toString dt.year
  timeRepr := fun dt =>
    pad2 dt.hour ++ ":" ++ pad2 dt.minute ++ ":" ++ pad2 dt.second

/-- Ambient facilities a handler invocation uses: the process locale
consulted by `strftime`, the `datetime.fromtimestamp` conversion, and the
`%.3f` float formatting of the elapsed time.  All three are external to
the plugin source. -/
structure Env where
  loc : TimeLocale
  fromts : ℚ → DT
  fmt3f : ℚ → String

/-- One outcome event as a handler receives it.  String fields carry the
outputs of the external nose helpers exactly as the handler interpolates
them: `cls` and `tname` are `self._quoteattr(id_split(id)[0])` and
`self._quoteattr(id_split(id)[-1])`, `errtype` is
`self._quoteattr(nice_classname(err[0]))`, `message` is
`self._quoteattr(exc_message(err))`, `tb` is
`escape_cdata(format_exception(err, self.encoding))`, `sysout` and
`syserr` are `self._getCapturedStdout()` and `self._getCapturedStderr()`.
`isSkipTest` is `issubclass(err[0], SkipTest)`, `timer` is `self._timer`
when the attribute exists, `now` is the value of the `time()` fallback
call, and `taken` is `self._timeTaken()`. -/
structure TestEvent where
  cls : String
  tname : String
  errtype : String
  message : String
  tb : String
  sysout : String
  syserr : String
  isSkipTest : Bool
  timer : Option ℚ
  now : ℚ
  taken : ℚ

/-- The start-of-test value every handler computes (lines 99-102, 129-132,
157-160): the recorded timer when present, otherwise the current time. -/
def startedOf (ev : TestEvent) : ℚ :=
  match ev.timer with
  | some t => t
  | none => ev.now

/-- The end-of-test value `ended = started + taken` (lines 103, 133, 161). -/
def endedOf (ev : TestEvent) : ℚ := startedOf ev + ev.taken

/-- The rendered `started` attribute:
`datetime.fromtimestamp(started).strftime("%x %X")`. -/
def startedAttr (env : Env) (ev : TestEvent) : String :=
  pyStrftime timestampFormat env.loc (env.fromts (startedOf ev))

/-- The rendered `ended` attribute:
`datetime.fromtimestamp(ended).strftime("%x %X")`. -/
def endedAttr (env : Env) (ev : TestEvent) : String :=
  pyStrftime timestampFormat env.loc (env.fromts (endedOf ev))

/-- The `<testcase ...>` opening common to all three handler templates
(the `addSuccess` template concatenates its two adjacent literals into
exactly the same text). -/
def testcaseStart (cls nm takenStr started ended : String) : String :=
  "<testcase classname=" ++ cls ++ " name=" ++ nm ++ " time=\"" ++ takenStr ++
  "\" started=\"" ++ started ++ "\" ended=\"" ++ ended ++ "\">"

/-- The fragment template of `addError` (lines 105-120), with the child
tag `typ` interpolated twice, as `%(type)s` is. -/
def errorFragment (typ cls nm takenStr started ended errtype message tb
    sysout syserr : String) : String :=
  testcaseStart cls nm takenStr started ended ++
  "<" ++ typ ++ " type=" ++ errtype ++ " message=" ++ message ++
  "><![CDATA[" ++ tb ++ "]]>" ++
  "</" ++ typ ++ ">" ++ sysout ++ syserr ++ "</testcase>"

/-- The fragment template of `addFailure` (lines 135-149). -/
def failureFragment (cls nm takenStr started ended errtype message tb
    sysout syserr : String) : String :=
  testcaseStart cls nm takenStr started ended ++
  "<failure type=" ++ errtype ++ " message=" ++ message ++
  "><![CDATA[" ++ tb ++ "]]>" ++
  "</failure>" ++ sysout ++ syserr ++ "</testcase>"

/-- The fragment template of `addSuccess` (lines 162-172). -/
def successFragment (cls nm takenStr started ended sysout syserr : String) :
    String :=
  testcaseStart cls nm takenStr started ended ++ sysout ++ syserr ++
  "</testcase>"

/-- Run-phase shared state: the four counters and the fragment list. -/
structure RunState where
  stats : Stats
  errorlist : List String
deriving DecidableEq

/-- Model of `XunitMP.addError` (lines 85-120): classify by `SkipTest`,
increment `skipped` or `errors` accordingly, and append one fragment whose
child tag is `skipped` or `error` accordingly. -/
def addError (env : Env) (ev : TestEvent) (st : RunState) : RunState :=
  let typ := if ev.isSkipTest then "skipped" else "error"
  let stats :=
    if ev.isSkipTest then { st.stats with skipped := st.stats.skipped + 1 }
    else { st.stats with errors := st.stats.errors + 1 }
  { stats := stats,
    errorlist := st.errorlist ++
      [errorFragment typ ev.cls ev.tname (env.fmt3f ev.taken)
        (startedAttr env ev) (endedAttr env ev) ev.errtype ev.message
        ev.tb ev.sysout ev.syserr] }

/-- Model of `XunitMP.addFailure` (lines 122-149). -/
def addFailure (env : Env) (ev : TestEvent) (st : RunState) : RunState :=
  { stats := { st.stats with failures := st.stats.failures + 1 },
    errorlist := st.errorlist ++
      [failureFragment ev.cls ev.tname (env.fmt3f ev.taken)
        (startedAttr env ev) (endedAttr env ev) ev.errtype ev.message
        ev.tb ev.sysout ev.syserr] }

/-- Model of `XunitMP.addSuccess` (lines 151-172). -/
def addSuccess (env : Env) (ev : TestEvent) (st : RunState) : RunState :=
  { stats := { st.stats with passes := st.stats.passes + 1 },
    errorlist := st.errorlist ++
      [successFragment ev.cls ev.tname (env.fmt3f ev.taken)
        (startedAttr env ev) (endedAttr env ev) ev.sysout ev.syserr] }

/-- One outcome dispatched to its handler. -/
inductive OutcomeEvent
  | err (ev : TestEvent)
  | fail (ev : TestEvent)
  | pass (ev : TestEvent)

/-- Dispatch of one outcome event. -/
def applyEvent (env : Env) (e : OutcomeEvent) (st : RunState) : RunState :=
  match e with
  | .err ev => addError env ev st
  | .fail ev => addFailure env ev st
  | .pass ev => addSuccess env ev st

/-- Sequential (non-interleaved) execution of a list of outcomes. -/
def runEvents (env : Env) (events : List OutcomeEvent) (st : RunState) :
    RunState :=
  events.foldl (fun s e => applyEvent env e s) st

/-- The state `configure` initialises: all counters zero, no fragments. -/
def initialRunState : RunState := ⟨⟨0, 0, 0, 0⟩, []⟩

/-- Helper: the effect of a single handler on the counters and the
fragment list. -/
theorem applyEvent_effect (env : Env) (e : OutcomeEvent) (st : RunState) :
    (applyEvent env e st).stats.total = st.stats.total + 1 ∧
    (∃ frag, (applyEvent env e st).errorlist = st.errorlist ++ [frag]) := by
  cases e with
  | err ev =>
    cases hskip : ev.isSkipTest <;>
      simp [applyEvent, addError, Stats.total, hskip] <;> omega
  | fail ev => simp [applyEvent, addFailure, Stats.total]; omega
  | pass ev => simp [applyEvent, addSuccess, Stats.total]; omega

/-- Helper: over any sequential run, counters total and fragment count
both grow by exactly the number of events. -/
theorem runEvents_counts (env : Env) (events : List OutcomeEvent) :
    ∀ st : RunState,
      (runEvents env events st).stats.total =
        st.stats.total + events.length ∧
      (runEvents env events st).errorlist.length =
        st.errorlist.length + events.length := by
  induction events with
  | nil => intro st; simp [runEvents]
  | cons e rest ih =>
    intro st
    obtain ⟨h1, frag, h2⟩ := applyEvent_effect env e st
    have hr := ih (applyEvent env e st)
    refine ⟨?_, ?_⟩
    · show (runEvents env rest (applyEvent env e st)).stats.total = _
      rw [hr.1, h1]
      simp [List.length_cons]
      omega
    · show (runEvents env rest (applyEvent env e st)).errorlist.length = _
      rw [hr.2, h2]
      simp [List.length_append, List.length_cons]
      omega

/-- C4 amended: every outcome handler performs exactly one counter
increment (raising the total of the four counters by one) and exactly one
fragment append; consequently, when handlers execute without interleaving,
at every snapshot between handlers the total of the four counters equals
the number of fragments appended so far.  (Under concurrent interleaving
of two handlers the increment, being a separate read and write, can lose
an update — see the interleaved machine above.) -/
theorem handlers_one_increment_one_append_seq :
    (∀ (env : Env) (e : OutcomeEvent) (st : RunState),
        (applyEvent env e st).stats.total = st.stats.total + 1 ∧
        (∃ frag, (applyEvent env e st).errorlist = st.errorlist ++ [frag])) ∧
    (∀ (env : Env) (events : List OutcomeEvent),
        (runEvents env events initialRunState).stats.total =
          (runEvents env events initialRunState).errorlist.length) := by
  refine ⟨applyEvent_effect, fun env events => ?_⟩
  obtain ⟨h1, h2⟩ := runEvents_counts env events initialRunState
  rw [h1, h2]
  simp [initialRunState, Stats.total]

/-- C6: in every outcome handler, when no explicit start timestamp was
recorded (`self._timer` absent) the start-of-test falls back to the
current time, and the `ended` value rendered into the fragment always
equals the used start value plus the elapsed duration.  The conjuncts
about the three handlers show that the rendered `started`/`ended`
attributes are exactly the renderings of `startedOf` and of
`startedOf + taken`. -/
theorem start_time_fallback_and_ended (env : Env) (ev : TestEvent)
    (st : RunState) :
    (ev.timer = none → startedOf ev = ev.now) ∧
    (∀ t, ev.timer = some t → startedOf ev = t) ∧
    endedOf ev = startedOf ev + ev.taken ∧
    (addSuccess env ev st).errorlist = st.errorlist ++
      [successFragment ev.cls ev.tname (env.fmt3f ev.taken)
        (pyStrftime timestampFormat env.loc (env.fromts (startedOf ev)))
        (pyStrftime timestampFormat env.loc
          (env.fromts (startedOf ev + ev.taken)))
        ev.sysout ev.syserr] ∧
    (addFailure env ev st).errorlist = st.errorlist ++
      [failureFragment ev.cls ev.tname (env.fmt3f ev.taken)
        (pyStrftime timestampFormat env.loc (env.fromts (startedOf ev)))
        (pyStrftime timestampFormat env.loc
          (env.fromts (startedOf ev + ev.taken)))
        ev.errtype ev.message ev.tb ev.sysout ev.syserr] ∧
    (addError env ev st).errorlist = st.errorlist ++
      [errorFragment (if ev.isSkipTest then "skipped" else "error")
        ev.cls ev.tname (env.fmt3f ev.taken)
        (pyStrftime timestampFormat env.loc (env.fromts (startedOf ev)))
        (pyStrftime timestampFormat env.loc
          (env.fromts (startedOf ev + ev.taken)))
        ev.errtype ev.message ev.tb ev.sysout ev.syserr] := by
  refine ⟨fun h => by simp [startedOf, h], fun t h => by simp [startedOf, h],
          rfl, ?_, ?_, ?_⟩ <;>
    simp [addSuccess, addFailure, addError, startedAttr, endedAttr, endedOf]

/-- A sample environment used by the concrete witnesses: C locale, a
fixed calendar conversion and a fixed float formatting. -/
def sampleEnv : Env :=
  { loc := cLocale,
    fromts := fun _ => ⟨2024, 7, 15, 10, 30, 45⟩,
    fmt3f := fun _ => "0.010" }

/-- A sample skip event used by the concrete witnesses. -/
def sampleSkipEvent : TestEvent :=
  { cls := "\"pkg.mod.Cls\"", tname := "\"test_a\"",
    errtype := "\"nose.SkipTest\"", message := "\"skipped\"",
    tb := "raise SkipTest", sysout := "", syserr := "",
    isSkipTest := true, timer := none, now := 100, taken := 2 }

/-- Witness for C6 at a concrete event with no recorded start timer. -/
theorem start_time_fallback_and_ended_witness :
    (sampleSkipEvent.timer = none → startedOf sampleSkipEvent = 100) ∧
    endedOf sampleSkipEvent = startedOf sampleSkipEvent + 2 ∧
    startedOf sampleSkipEvent = 100 ∧ endedOf sampleSkipEvent = 102 := by
  have h := start_time_fallback_and_ended sampleEnv sampleSkipEvent
    initialRunState
  exact ⟨fun _ => h.1 rfl, h.2.2.1, h.1 rfl, by rw [h.2.2.1, h.1 rfl]; norm_num [sampleSkipEvent]⟩

/-- C7 counterexample: the handlers render timestamps with
`strftime("%x %X")`, and `%x`/`%X` are the representations of the current
locale, so the rendering is locale-dependent: the same instant renders
differently under the C locale and under a German-style locale, also in
the rendered `started` attribute of a handler fragment. -/
theorem timestamp_rendering_locale_dependent :
    pyStrftime timestampFormat cLocale ⟨2024, 7, 15, 10, 30, 45⟩ ≠
      pyStrftime timestampFormat germanLocale ⟨2024, 7, 15, 10, 30, 45⟩ ∧
    pyStrftime timestampFormat cLocale ⟨2024, 7, 15, 10, 30, 45⟩ =
      "07/15/24 10:30:45" ∧
    pyStrftime timestampFormat germanLocale ⟨2024, 7, 15, 10, 30, 45⟩ =
      "15.07.2024 10:30:45" ∧
    startedAttr { loc := cLocale, fromts := fun _ => ⟨2024, 7, 15, 10, 30, 45⟩,
                  fmt3f := fun _ => "0.010" } sampleSkipEvent ≠
      startedAttr { loc := germanLocale,
                    fromts := fun _ => ⟨2024, 7, 15, 10, 30, 45⟩,
                    fmt3f := fun _ => "0.010" } sampleSkipEvent := by
  decide

/-- C7 amended: the `started` and `ended` attributes of every fragment
are rendered through the one shared format string `%x %X` (so the two
attributes are formatted consistently), and under the C locale that
format is a second-granularity date-time rendering; but the rendering
goes through the locale representations and is therefore locale-dependent
rather than locale-independent. -/
theorem timestamp_format_consistent_second_granularity :
    (∀ (env : Env) (ev : TestEvent),
        startedAttr env ev =
          pyStrftime timestampFormat env.loc (env.fromts (startedOf ev)) ∧
        endedAttr env ev =
          pyStrftime timestampFormat env.loc (env.fromts (endedOf ev))) ∧
    (∀ dt : DT,
        pyStrftime timestampFormat cLocale dt =
          pad2 dt.month ++ "/" ++ pad2 dt.day ++ "/" ++ pad2 (dt.year % 100) ++
          " " ++ pad2 dt.hour ++ ":" ++ pad2 dt.minute ++ ":" ++
          pad2 dt.second) := by
  refine ⟨fun env ev => ⟨rfl, rfl⟩, fun dt => ?_⟩
  refine String.ext ?_
  show (cLocale.dateRepr dt ++
        (String.singleton ' ' ++ (cLocale.timeRepr dt ++ ""))).data = _
  simp [cLocale, String.singleton, String.data_append, List.append_assoc]

/-- The well-known shared slot: the attribute `_nose_xunitmp_state` that
`configure` stores on the pickled nose config object (lines 43-54). -/
structure NoseConfig where
  sharedSlot : Option (List String × Stats)
deriving DecidableEq

/-- What the plugin instance holds after `configure`: its references to
the shared error list and stats, and the report file name taken from
`options.xunitmp_file` (line 55). -/
structure PluginView where
  errorlist : List String
  stats : Stats
  reportFilename : String
deriving DecidableEq

/-- The counters map `configure` allocates: all four counters zero. -/
def initialStats : Stats := ⟨0, 0, 0, 0⟩

/-- Model of `XunitMP.configure` (lines 32-55): when the plugin is
enabled, attach to the published shared state when the well-known slot
already holds one, otherwise allocate a fresh empty error list and
all-zero counters map and publish the pair in the slot. -/
def configure (enabled : Bool) (xunitmpFile : String) (cfg : NoseConfig) :
    Option PluginView × NoseConfig :=
  if enabled then
    match cfg.sharedSlot with
    | some (el, st) => (some ⟨el, st, xunitmpFile⟩, cfg)
    | none =>
        (some ⟨[], initialStats, xunitmpFile⟩, ⟨some ([], initialStats)⟩)
  else (none, cfg)

/-- C5: initialization of the shared store is idempotent.  When the
well-known slot already holds a handle, `configure` attaches to exactly
that error list and counters map and leaves the config unchanged;
otherwise it allocates an all-zero counters map and an empty fragment
sequence and publishes the pair in the slot; and a second `configure`
always attaches to whatever the first one published. -/
theorem configure_idempotent_init (enabled : Bool) (fileOpt : String)
    (cfg : NoseConfig) (h : enabled = true) :
    (cfg.sharedSlot = none →
      configure enabled fileOpt cfg =
        (some ⟨[], initialStats, fileOpt⟩, ⟨some ([], initialStats)⟩) ∧
      initialStats.errors = 0 ∧ initialStats.failures = 0 ∧
      initialStats.passes = 0 ∧ initialStats.skipped = 0) ∧
    (∀ el st, cfg.sharedSlot = some (el, st) →
      configure enabled fileOpt cfg = (some ⟨el, st, fileOpt⟩, cfg)) ∧
    (∀ fileOpt2, ∃ el st,
      (configure enabled fileOpt cfg).2.sharedSlot = some (el, st) ∧
      configure enabled fileOpt2 (configure enabled fileOpt cfg).2 =
        (some ⟨el, st, fileOpt2⟩, (configure enabled fileOpt cfg).2)) := by
  subst h
  obtain ⟨slot⟩ := cfg
  cases slot with
  | none =>
    refine ⟨fun _ => ⟨rfl, rfl, rfl, rfl, rfl⟩, ?_, ?_⟩
    · intro el st hs
      cases hs
    · intro f2
      exact ⟨[], initialStats, rfl, rfl⟩
  | some pair =>
    obtain ⟨el, st⟩ := pair
    refine ⟨?_, ?_, ?_⟩
    · intro hn
      cases hn
    · intro el2 st2 hs
      obtain ⟨rfl, rfl⟩ := Prod.mk.injEq .. ▸ Option.some.inj hs
      rfl
    · intro f2
      exact ⟨el, st, rfl, rfl⟩

/-- Witness for C5 on a fresh config with an empty shared slot. -/
theorem configure_idempotent_init_witness :
    ((⟨none⟩ : NoseConfig).sharedSlot = none →
      configure true "nosetests.xml" ⟨none⟩ =
        (some ⟨[], initialStats, "nosetests.xml"⟩,
         ⟨some ([], initialStats)⟩) ∧
      initialStats.errors = 0 ∧ initialStats.failures = 0 ∧
      initialStats.passes = 0 ∧ initialStats.skipped = 0) ∧
    (∀ el st, (⟨none⟩ : NoseConfig).sharedSlot = some (el, st) →
      configure true "nosetests.xml" ⟨none⟩ =
        (some ⟨el, st, "nosetests.xml"⟩, ⟨none⟩)) ∧
    (∀ fileOpt2, ∃ el st,
      (configure true "nosetests.xml" (⟨none⟩ : NoseConfig)).2.sharedSlot =
        some (el, st) ∧
      configure true fileOpt2
          (configure true "nosetests.xml" (⟨none⟩ : NoseConfig)).2 =
        (some ⟨el, st, fileOpt2⟩,
         (configure true "nosetests.xml" (⟨none⟩ : NoseConfig)).2)) :=
  configure_idempotent_init true "nosetests.xml" ⟨none⟩ rfl

/-- A string that can be interpolated into a fragment without forging an
`<error` or `<failure` tag: none of its adjacent pairs is `<` followed by
`e` or `f`, and it does not end in `<` (so no tag can start at a chunk
boundary either).  Every output of the attribute escaper satisfies this,
and so do captured-output blocks, whose `<` occurrences start
`<system-out>`-style tags. -/
def cleanPiece (s : String) : Prop :=
  ('<', 'e') ∉ adjPairs s.data ∧ ('<', 'f') ∉ adjPairs s.data ∧
  s.data.getLast? ≠ some '<'

instance (s : String) : Decidable (cleanPiece s) :=
  inferInstanceAs (Decidable (('<', 'e') ∉ adjPairs s.data ∧
    ('<', 'f') ∉ adjPairs s.data ∧ s.data.getLast? ≠ some '<'))

/-- Helper: the characters of the `addError` fragment for the skip case,
cut at every interpolation point. -/
theorem errorFragment_skipped_data (cls nm tk st en et ms tb so se : String) :
    (errorFragment "skipped" cls nm tk st en et ms tb so se).data =
      (List.flatten
        [("<testcase classname=" : String).data, cls.data,
         (" name=" : String).data, nm.data,
         (" time=\"" : String).data, tk.data,
         ("\" started=\"" : String).data, st.data,
         ("\" ended=\"" : String).data, en.data,
         ("\"><skipped type=" : String).data, et.data,
         (" message=" : String).data, ms.data,
         ("><![CDATA[" : String).data, tb.data,
         ("]]></skipped>" : String).data, so.data, se.data,
         ("</testcase>" : String).data]) := by
  simp [errorFragment, testcaseStart, String.data_append, List.append_assoc]

/-- Helper: the skip fragment contains the `<skipped` tag opening. -/
theorem errorFragment_skipped_has_tag (cls nm tk st en et ms tb so se : String) :
    occursIn ("<skipped" : String).data
      (errorFragment "skipped" cls nm tk st en et ms tb so se).data := by
  refine ⟨("<testcase classname=" : String).data ++ cls.data ++
          (" name=" : String).data ++ nm.data ++ (" time=\"" : String).data ++
          tk.data ++ ("\" started=\"" : String).data ++ st.data ++
          ("\" ended=\"" : String).data ++ en.data ++ ("\">" : String).data,
          (" type=" : String).data ++ et.data ++ (" message=" : String).data ++
          ms.data ++ ("><![CDATA[" : String).data ++ tb.data ++
          ("]]></skipped>" : String).data ++ so.data ++ se.data ++
          ("</testcase>" : String).data, ?_⟩
  simp [errorFragment, testcaseStart, String.data_append, List.append_assoc]

/-- Helper: the error fragment contains the `<error` tag opening. -/
theorem errorFragment_error_has_tag (cls nm tk st en et ms tb so se : String) :
    occursIn ("<error" : String).data
      (errorFragment "error" cls nm tk st en et ms tb so se).data := by
  refine ⟨("<testcase classname=" : String).data ++ cls.data ++
          (" name=" : String).data ++ nm.data ++ (" time=\"" : String).data ++
          tk.data ++ ("\" started=\"" : String).data ++ st.data ++
          ("\" ended=\"" : String).data ++ en.data ++ ("\">" : String).data,
          (" type=" : String).data ++ et.data ++ (" message=" : String).data ++
          ms.data ++ ("><![CDATA[" : String).data ++ tb.data ++
          ("]]></error>" : String).data ++ so.data ++ se.data ++
          ("</testcase>" : String).data, ?_⟩
  simp [errorFragment, testcaseStart, String.data_append, List.append_assoc]

/-- Helper: with clean interpolated pieces, the skip fragment contains
neither an `<error` nor a `<failure` tag opening — its only `<` characters
start `<testcase`, `<skipped`, `<![CDATA[`, closing tags, or tags carried
by the captured-output pieces, none of which continue with `e` or `f`. -/
theorem errorFragment_skipped_clean (cls nm tk st en et ms tb so se : String)
    (h1 : cleanPiece cls) (h2 : cleanPiece nm) (h3 : cleanPiece tk)
    (h4 : cleanPiece st) (h5 : cleanPiece en) (h6 : cleanPiece et)
    (h7 : cleanPiece ms) (h8 : cleanPiece tb) (h9 : cleanPiece so)
    (h10 : cleanPiece se) :
    ¬ occursIn ("<error" : String).data
        (errorFragment "skipped" cls nm tk st en et ms tb so se).data ∧
    ¬ occursIn ("<failure" : String).data
        (errorFragment "skipped" cls nm tk st en et ms tb so se).data := by
  constructor
  · intro hocc
    have hocc2 : occursIn ('<' :: 'e' :: ['r', 'r', 'o', 'r'])
        (errorFragment "skipped" cls nm tk st en et ms tb so se).data := hocc
    have hp := pair_of_occursIn hocc2
    rw [errorFragment_skipped_data] at hp
    refine flatten_no_pair ?_ hp
    intro l hl
    simp only [List.mem_cons, List.not_mem_nil, or_false] at hl
    rcases hl with rfl | rfl | rfl | rfl | rfl | rfl | rfl | rfl | rfl | rfl |
      rfl | rfl | rfl | rfl | rfl | rfl | rfl | rfl | rfl | rfl
    · exact ⟨by decide, by decide⟩
    · exact ⟨h1.1, h1.2.2⟩
    · exact ⟨by decide, by decide⟩
    · exact ⟨h2.1, h2.2.2⟩
    · exact ⟨by decide, by decide⟩
    · exact ⟨h3.1, h3.2.2⟩
    · exact ⟨by decide, by decide⟩
    · exact ⟨h4.1, h4.2.2⟩
    · exact ⟨by decide, by decide⟩
    · exact ⟨h5.1, h5.2.2⟩
    · exact ⟨by decide, by decide⟩
    · exact ⟨h6.1, h6.2.2⟩
    · exact ⟨by decide, by decide⟩
    · exact ⟨h7.1, h7.2.2⟩
    · exact ⟨by decide, by decide⟩
    · exact ⟨h8.1, h8.2.2⟩
    · exact ⟨by decide, by decide⟩
    · exact ⟨h9.1, h9.2.2⟩
    · exact ⟨h10.1, h10.2.2⟩
    · exact ⟨by decide, by decide⟩
  · intro hocc
    have hocc2 : occursIn ('<' :: 'f' :: ['a', 'i', 'l', 'u', 'r', 'e'])
        (errorFragment "skipped" cls nm tk st en et ms tb so se).data := hocc
    have hp := pair_of_occursIn hocc2
    rw [errorFragment_skipped_data] at hp
    refine flatten_no_pair ?_ hp
    intro l hl
    simp only [List.mem_cons, List.not_mem_nil, or_false] at hl
    rcases hl with rfl | rfl | rfl | rfl | rfl | rfl | rfl | rfl | rfl | rfl |
      rfl | rfl | rfl | rfl | rfl | rfl | rfl | rfl | rfl | rfl
    · exact ⟨by decide, by decide⟩
    · exact ⟨h1.2.1, h1.2.2⟩
    · exact ⟨by decide, by decide⟩
    · exact ⟨h2.2.1, h2.2.2⟩
    · exact ⟨by decide, by decide⟩
    · exact ⟨h3.2.1, h3.2.2⟩
    · exact ⟨by decide, by decide⟩
    · exact ⟨h4.2.1, h4.2.2⟩
    · exact ⟨by decide, by decide⟩
    · exact ⟨h5.2.1, h5.2.2⟩
    · exact ⟨by decide, by decide⟩
    · exact ⟨h6.2.1, h6.2.2⟩
    · exact ⟨by decide, by decide⟩
    · exact ⟨h7.2.1, h7.2.2⟩
    · exact ⟨by decide, by decide⟩
    · exact ⟨h8.2.1, h8.2.2⟩
    · exact ⟨by decide, by decide⟩
    · exact ⟨h9.2.1, h9.2.2⟩
    · exact ⟨h10.2.1, h10.2.2⟩
    · exact ⟨by decide, by decide⟩

/-- C3: when the exception type of an error event is a subclass of
`SkipTest`, `addError` increments `skipped` and not `errors` and appends
one fragment whose child element is `<skipped ...>` and which contains no
`<error` or `<failure` tag; for every other exception type it increments
`errors` and appends one fragment containing an `<error` child.  One
fragment is appended in both cases.  The cleanliness hypotheses say that
the interpolated helper outputs do not themselves spell a `<e`/`<f` tag
start, which holds for escaped attributes, rendered timestamps and
captured-output blocks. -/
theorem addError_skip_classification (env : Env) (ev : TestEvent)
    (st : RunState)
    (hcls : cleanPiece ev.cls) (hnm : cleanPiece ev.tname)
    (htk : cleanPiece (env.fmt3f ev.taken))
    (hst : cleanPiece (startedAttr env ev))
    (hen : cleanPiece (endedAttr env ev))
    (het : cleanPiece ev.errtype) (hms : cleanPiece ev.message)
    (htb : cleanPiece ev.tb) (hso : cleanPiece ev.sysout)
    (hse : cleanPiece ev.syserr) :
    (ev.isSkipTest = true →
      (addError env ev st).stats.skipped = st.stats.skipped + 1 ∧
      (addError env ev st).stats.errors = st.stats.errors ∧
      ∃ frag, (addError env ev st).errorlist = st.errorlist ++ [frag] ∧
        occursIn ("<skipped" : String).data frag.data ∧
        ¬ occursIn ("<error" : String).data frag.data ∧
        ¬ occursIn ("<failure" : String).data frag.data) ∧
    (ev.isSkipTest = false →
      (addError env ev st).stats.errors = st.stats.errors + 1 ∧
      (addError env ev st).stats.skipped = st.stats.skipped ∧
      ∃ frag, (addError env ev st).errorlist = st.errorlist ++ [frag] ∧
        occursIn ("<error" : String).data frag.data) := by
  constructor
  · intro hskip
    have hclean := errorFragment_skipped_clean ev.cls ev.tname
      (env.fmt3f ev.taken) (startedAttr env ev) (endedAttr env ev)
      ev.errtype ev.message ev.tb ev.sysout ev.syserr
      hcls hnm htk hst hen het hms htb hso hse
    refine ⟨by simp [addError, hskip], by simp [addError, hskip],
            errorFragment "skipped" ev.cls ev.tname (env.fmt3f ev.taken)
              (startedAttr env ev) (endedAttr env ev) ev.errtype ev.message
              ev.tb ev.sysout ev.syserr,
            by simp [addError, hskip],
            errorFragment_skipped_has_tag ev.cls ev.tname (env.fmt3f ev.taken)
              (startedAttr env ev) (endedAttr env ev) ev.errtype ev.message
              ev.tb ev.sysout ev.syserr,
            hclean.1, hclean.2⟩
  · intro hskip
    refine ⟨by simp [addError, hskip], by simp [addError, hskip],
            errorFragment "error" ev.cls ev.tname (env.fmt3f ev.taken)
              (startedAttr env ev) (endedAttr env ev) ev.errtype ev.message
              ev.tb ev.sysout ev.syserr,
            by simp [addError, hskip],
            errorFragment_error_has_tag ev.cls ev.tname (env.fmt3f ev.taken)
              (startedAttr env ev) (endedAttr env ev) ev.errtype ev.message
              ev.tb ev.sysout ev.syserr⟩

/-- A sample genuine-error event used by the concrete witnesses. -/
def sampleErrorEvent : TestEvent :=
  { sampleSkipEvent with
    errtype := "\"ValueError\""
    message := "\"boom\""
    tb := "line1 line2"
    isSkipTest := false }

/-- Witness for C3 at one concrete skip event and one concrete genuine
error event. -/
theorem addError_skip_classification_witness :
    cleanPiece sampleSkipEvent.cls ∧ cleanPiece sampleSkipEvent.tname ∧
    cleanPiece (sampleEnv.fmt3f sampleSkipEvent.taken) ∧
    cleanPiece (startedAttr sampleEnv sampleSkipEvent) ∧
    cleanPiece (endedAttr sampleEnv sampleSkipEvent) ∧
    cleanPiece sampleSkipEvent.errtype ∧ cleanPiece sampleSkipEvent.message ∧
    cleanPiece sampleSkipEvent.tb ∧ cleanPiece sampleSkipEvent.sysout ∧
    cleanPiece sampleSkipEvent.syserr ∧
    ((addError sampleEnv sampleSkipEvent initialRunState).stats.skipped = 1 ∧
     (addError sampleEnv sampleSkipEvent initialRunState).stats.errors = 0 ∧
     ∃ frag,
       (addError sampleEnv sampleSkipEvent initialRunState).errorlist =
         [frag] ∧
       occursIn ("<skipped" : String).data frag.data ∧
       ¬ occursIn ("<error" : String).data frag.data ∧
       ¬ occursIn ("<failure" : String).data frag.data) ∧
    ((addError sampleEnv sampleErrorEvent initialRunState).stats.errors = 1 ∧
     ∃ frag,
       (addError sampleEnv sampleErrorEvent initialRunState).errorlist =
         [frag] ∧
       occursIn ("<error" : String).data frag.data) := by
  refine ⟨by decide, by decide, by decide, by decide, by decide, by decide,
          by decide, by decide, by decide, by decide, ?_, ?_⟩
  · have h := (addError_skip_classification sampleEnv sampleSkipEvent
      initialRunState (by decide) (by decide) (by decide) (by decide)
      (by decide) (by decide) (by decide) (by decide) (by decide)
      (by decide)).1 rfl
    simpa [initialRunState] using h
  · have h := (addError_skip_classification sampleEnv sampleErrorEvent
      initialRunState (by decide) (by decide) (by decide) (by decide)
      (by decide) (by decide) (by decide) (by decide) (by decide)
      (by decide)).2 rfl
    obtain ⟨he, hs, frag, hl, ht⟩ := h
    exact ⟨by simpa [initialRunState] using he, frag,
           by simpa [initialRunState] using hl, ht⟩
